import Mathlib

/-!
Verification of the Niimbot printer driver core of `barcode-label-printer`.

The definitions below are a shallow embedding of the Python sources:
  * `NiimbotPacket` with `to_bytes` / `from_bytes` embeds
    `barcode_label_printer/printer/niimbot/packet.py`,
  * `recvLoop` / `recv` embeds `PrinterClient._recv`,
  * `scanBatch` / `transceiveGo` / `transceive` embeds `PrinterClient._transceive`,
  * `rowBits` / `encode_row` / `encode_image` embeds `PrinterClient._encode_image`,
  * `print_image` embeds the call sequence of `PrinterClient.print_image`,
  * `adjustDensity` / `print_image_file` embeds the density handling of
    `NiimbotPrinter.print_image_file`,
  * `boolCommandResult` / `get_info_result` embed the response handling of
    the boolean-success command wrappers and of `PrinterClient.get_info`.

Bytes are modelled as `Nat` with explicit range guards where the Python
`bytes` constructor or `struct.pack` would raise; fallible Python code
(assertion failures, `ValueError`, attribute errors on `None`) is modelled
with `Option` / explicit outcome types; the unbounded `while` loop of
`_recv` is modelled with fuel, `RecvOutcome.outOfFuel` marking that no
amount of fuel made the loop finish.
-/

/-- A Niimbot protocol packet: a type byte and a payload (`packet.py`,
class `NiimbotPacket`). -/
structure NiimbotPacket where
  type : Nat
  data : List Nat
  deriving DecidableEq, Repr

/-- XOR checksum seeded with `type XOR len` and folded over the payload,
exactly as computed in both `to_bytes` and `from_bytes`. -/
def xorChecksum (t len : Nat) (data : List Nat) : Nat :=
  data.foldl (fun a b => a ^^^ b) (t ^^^ len)

/-- Encoding `NiimbotPacket.to_bytes`: `55 55 type len payload… checksum AA AA`.
The Python `bytes(...)` constructor raises if any element exceeds 255,
which the final guard models by returning `none`. -/
def NiimbotPacket.to_bytes (p : NiimbotPacket) : Option (List Nat) :=
  let cs := xorChecksum p.type p.data.length p.data
  let out := [0x55, 0x55, p.type, p.data.length] ++ p.data ++ [cs, 0xAA, 0xAA]
  if out.all (fun b => b ≤ 255) then some out else none

/-- Decoding `NiimbotPacket.from_bytes`: checks the `55 55` prefix, the `AA AA`
suffix and the checksum byte (the three `assert` statements), then returns
the type byte and the payload slice `pkt[4 : 4+len]`.  Any assertion
failure is `none`. -/
def NiimbotPacket.from_bytes (pkt : List Nat) : Option NiimbotPacket :=
  if pkt.take 2 = [0x55, 0x55] ∧ pkt.drop (pkt.length - 2) = [0xAA, 0xAA] then
    let t := pkt.getD 2 0
    let len := pkt.getD 3 0
    let data := (pkt.drop 4).take len
    if xorChecksum t len data = pkt.getD (pkt.length - 3) 0 then
      some ⟨t, data⟩
    else none
  else none

lemma xorChecksum_le (t len : Nat) (data : List Nat)
    (ht : t ≤ 255) (hlen : len ≤ 255) (hd : ∀ b ∈ data, b ≤ 255) :
    xorChecksum t len data ≤ 255 := by
  have h256 : (256 : Nat) = 2 ^ 8 := by norm_num
  have init : t ^^^ len < 2 ^ 8 := by
    exact Nat.xor_lt_two_pow (by omega) (by omega)
  unfold xorChecksum
  have : ∀ (l : List Nat) (a : Nat), a < 2 ^ 8 → (∀ b ∈ l, b ≤ 255) →
      l.foldl (fun a b => a ^^^ b) a < 2 ^ 8 := by
    intro l
    induction l with
    | nil => intro a ha _; simpa using ha
    | cons x xs ih =>
      intro a ha hmem
      have hx : x < 2 ^ 8 := by
        have := hmem x (List.mem_cons_self x xs)
        omega
      have : a ^^^ x < 2 ^ 8 := Nat.xor_lt_two_pow ha hx
      simpa using ih (a ^^^ x) this (fun b hb => hmem b (List.mem_cons_of_mem _ hb))
  have := this data (t ^^^ len) init hd
  omega

/-- C1: For every packet type in `[0,255]` and every payload of length in
`[0,255]` (each payload byte a byte), encoding with `to_bytes` succeeds and
decoding the result with `from_bytes` returns exactly the original type and
payload. -/
theorem C1_roundtrip (t : Nat) (data : List Nat)
    (ht : t ≤ 255) (hl : data.length ≤ 255) (hd : ∀ b ∈ data, b ≤ 255) :
    (NiimbotPacket.to_bytes ⟨t, data⟩).bind NiimbotPacket.from_bytes
      = some ⟨t, data⟩ := by
  have hcs : xorChecksum t data.length data ≤ 255 :=
    xorChecksum_le t data.length data ht hl hd
  set cs := xorChecksum t data.length data with hcs_def
  have hall :
      ([0x55, 0x55, t, data.length] ++ data ++ [cs, 0xAA, 0xAA]).all
        (fun b => b ≤ 255) = true := by
    rw [List.all_eq_true]
    intro b hb
    simp only [List.mem_append, List.mem_cons, List.not_mem_nil, or_false] at hb
    simp only [decide_eq_true_eq]
    rcases hb with (hb | hb) | hb
    · rcases hb with h | h | h | h <;> omega
    · exact hd b hb
    · rcases hb with h | h | h <;> omega
  have henc : NiimbotPacket.to_bytes ⟨t, data⟩ =
      some ([0x55, 0x55, t, data.length] ++ data ++ [cs, 0xAA, 0xAA]) := by
    unfold NiimbotPacket.to_bytes
    simp only [← hcs_def]
    rw [if_pos hall]
  rw [henc]
  show NiimbotPacket.from_bytes ([0x55, 0x55, t, data.length] ++ data ++ [cs, 0xAA, 0xAA])
      = some ⟨t, data⟩
  set out := [0x55, 0x55, t, data.length] ++ data ++ [cs, 0xAA, 0xAA] with hout
  have hlen_out : out.length = data.length + 7 := by
    simp [hout]
  have htake2 : out.take 2 = [0x55, 0x55] := by
    simp [hout]
  have hdrop : out.drop (out.length - 2) = [0xAA, 0xAA] := by
    have hdecomp : out = ([0x55, 0x55, t, data.length] ++ data ++ [cs]) ++ [0xAA, 0xAA] := by
      simp [hout]
    conv_lhs => rw [hdecomp]
    exact List.drop_left' (by simp)
  have hgetD2 : out.getD 2 0 = t := by simp [hout, List.getD]
  have hgetD3 : out.getD 3 0 = data.length := by simp [hout, List.getD]
  have hdrop4 : out.drop 4 = data ++ [cs, 0xAA, 0xAA] := by
    simp [hout]
  have hdata : (out.drop 4).take data.length = data := by
    rw [hdrop4, List.take_left]
  have hgetDcs : out.getD (out.length - 3) 0 = cs := by
    have hdecomp : out = ([0x55, 0x55, t, data.length] ++ data) ++ cs :: [0xAA, 0xAA] := by
      simp [hout]
    have hidx : out.length - 3 = ([0x55, 0x55, t, data.length] ++ data).length + 0 := by
      simp [hlen_out]
    conv_lhs => rw [hidx, hdecomp]
    rw [List.getD_append_right _ _ _ _ (by omega)]
    simp
  unfold NiimbotPacket.from_bytes
  rw [if_pos ⟨htake2, hdrop⟩]
  simp only [hgetD2, hgetD3, hdata, hgetDcs]
  simp

/-- Witness for C1 at type 1, payload `[2, 3]`. -/
theorem C1_roundtrip_witness :
    ((NiimbotPacket.mk 1 [2, 3]).to_bytes).bind NiimbotPacket.from_bytes
      = some ⟨1, [2, 3]⟩ :=
  C1_roundtrip 1 [2, 3] (by decide) (by decide) (by decide)

/-- Outcome of one call to `PrinterClient._recv`: either the loop exits
normally with the extracted packets and the retained buffer, or
`from_bytes` fails (a Python assertion error), or no amount of fuel makes
the `while` loop finish (the loop body stops changing the state). -/
inductive RecvOutcome where
  | ok (packets : List NiimbotPacket) (rest : List Nat)
  | decodeFail
  | outOfFuel
  deriving DecidableEq, Repr

/-- The `while len(self._packetbuf) > 4` loop of `PrinterClient._recv`,
with explicit fuel.  Note the source loop has no `else: break`: when more
than 4 bytes are buffered but fewer than the declared frame length, the
body does nothing and the condition is re-tested on the same state. -/
def recvLoop : Nat → List Nat → List NiimbotPacket → RecvOutcome
  | 0, _, _ => RecvOutcome.outOfFuel
  | fuel + 1, buf, acc =>
    if 4 < buf.length then
      let pktLen := buf.getD 3 0 + 7
      if pktLen ≤ buf.length then
        match NiimbotPacket.from_bytes (buf.take pktLen) with
        | some p => recvLoop fuel (buf.drop pktLen) (acc ++ [p])
        | none => RecvOutcome.decodeFail
      else recvLoop fuel buf acc
    else RecvOutcome.ok acc buf

/-- Method `PrinterClient._recv`: extend the packet buffer with the bytes the
transport delivered, then run the frame-extraction loop. -/
def recv (buf chunk : List Nat) (fuel : Nat) : RecvOutcome :=
  recvLoop fuel (buf ++ chunk) []

lemma recvLoop_stuck (fuel : Nat) (buf : List Nat) (acc : List NiimbotPacket)
    (h4 : 4 < buf.length) (hshort : buf.length < buf.getD 3 0 + 7) :
    recvLoop fuel buf acc = RecvOutcome.outOfFuel := by
  induction fuel with
  | zero => rfl
  | succ n ih =>
    show recvLoop (n + 1) buf acc = RecvOutcome.outOfFuel
    rw [recvLoop]
    rw [if_pos h4, if_neg (by omega)]
    exact ih

/-- A receive buffer holding one complete frame (type 1, empty payload)
followed by the first five bytes of a second frame that declares a
one-byte payload (so three of its eight bytes are still missing). -/
def truncatedTailBuf : List Nat :=
  [0x55, 0x55, 0x01, 0x00, 0x01, 0xAA, 0xAA] ++ [0x55, 0x55, 0x02, 0x01, 0x00]

/-- C2 (refuted): on a buffer holding one complete frame followed by a
five-byte truncated second frame, `_recv` never terminates: after
extracting the first frame the loop condition `len(buf) > 4` stays true
while the declared frame length is not yet buffered, and the loop body no
longer changes the state.  No amount of fuel makes the call return the
one decoded packet the claim promises. -/
theorem C2_recv_nonterminating :
    ∀ fuel : Nat, recv [] truncatedTailBuf fuel = RecvOutcome.outOfFuel := by
  intro fuel
  cases fuel with
  | zero => rfl
  | succ n =>
    have hstep : recv [] truncatedTailBuf (n + 1)
        = recvLoop n [0x55, 0x55, 0x02, 0x01, 0x00] [⟨1, []⟩] := rfl
    rw [hstep]
    exact recvLoop_stuck n _ _ (by decide) (by decide)

/-- Result of `PrinterClient._transceive`: the two `raise` statements for
the sentinel packet types 219 and 0, a matched response packet, or the
final `return resp` with `resp` still `None` after six rounds. -/
inductive TransResult where
  | deviceError
  | notImplemented
  | response (p : NiimbotPacket)
  | noResponse
  deriving DecidableEq, Repr

/-- The `for packet in self._recv()` body of `_transceive`: scan one batch
of received packets in order; type 219 raises `ValueError`, type 0 raises
`NotImplementedError`, a packet of the expected response type overwrites
the recorded match (later duplicates win). -/
def scanBatch (respcode : Nat) (resp : Option NiimbotPacket) :
    List NiimbotPacket → Except TransResult (Option NiimbotPacket)
  | [] => Except.ok resp
  | p :: ps =>
    if p.type = 219 then Except.error TransResult.deviceError
    else if p.type = 0 then Except.error TransResult.notImplemented
    else scanBatch respcode (if p.type = respcode then some p else resp) ps

/-- The `for _ in range(6)` polling loop of `_transceive`.  `recvs k` is
the batch of packets `self._recv()` extracts in round `k`; the returned
`Nat` counts the calls made to `_recv` (one per round entered, hence one
`transport.read` each).  A matched response is returned at the end of its
round; after six unmatched rounds the result is `noResponse`. -/
def transceiveGo (respcode : Nat) (recvs : Nat → List NiimbotPacket) :
    Nat → Nat → TransResult × Nat
  | 0, i => (TransResult.noResponse, i)
  | fuel + 1, i =>
    match scanBatch respcode none (recvs i) with
    | Except.error e => (e, i + 1)
    | Except.ok (some p) => (TransResult.response p, i + 1)
    | Except.ok none => transceiveGo respcode recvs fuel (i + 1)

/-- Method `PrinterClient._transceive(reqcode, data, respoffset)`: the expected
response type is `respoffset + reqcode`; then six polling rounds.  `data`
is the request payload (sent, not used for matching). -/
def transceive (reqcode : Nat) (data : List Nat) (respoffset : Nat)
    (recvs : Nat → List NiimbotPacket) : TransResult × Nat :=
  transceiveGo (respoffset + reqcode) recvs 6 0

/-- The request codes of `RequestCodeEnum` in `printer.py`. -/
def RequestCodeEnum.GET_INFO : Nat := 64
def RequestCodeEnum.SET_LABEL_TYPE : Nat := 35
def RequestCodeEnum.SET_LABEL_DENSITY : Nat := 33
def RequestCodeEnum.START_PRINT : Nat := 1
def RequestCodeEnum.END_PRINT : Nat := 243
def RequestCodeEnum.START_PAGE_PRINT : Nat := 3
def RequestCodeEnum.END_PAGE_PRINT : Nat := 227
def RequestCodeEnum.SET_DIMENSION : Nat := 19

/-- The transaction-issuing commands of `PrinterClient`, with the argument
each wrapper method takes. -/
inductive Command where
  | get_info (key : Nat)
  | set_label_type (n : Nat)
  | set_label_density (n : Nat)
  | start_print
  | end_print
  | start_page_print
  | end_page_print
  | set_dimension (w h : Nat)
  deriving DecidableEq, Repr

/-- Request code passed to `_transceive` by each wrapper in `printer.py`. -/
def Command.reqcode : Command → Nat
  | Command.get_info _ => RequestCodeEnum.GET_INFO
  | Command.set_label_type _ => RequestCodeEnum.SET_LABEL_TYPE
  | Command.set_label_density _ => RequestCodeEnum.SET_LABEL_DENSITY
  | Command.start_print => RequestCodeEnum.START_PRINT
  | Command.end_print => RequestCodeEnum.END_PRINT
  | Command.start_page_print => RequestCodeEnum.START_PAGE_PRINT
  | Command.end_page_print => RequestCodeEnum.END_PAGE_PRINT
  | Command.set_dimension _ _ => RequestCodeEnum.SET_DIMENSION

/-- Request payload passed to `_transceive` by each wrapper
(`set_dimension` packs `>HH`, the rest send a single byte). -/
def Command.payload : Command → List Nat
  | Command.get_info key => [key]
  | Command.set_label_type n => [n]
  | Command.set_label_density n => [n]
  | Command.start_print => [1]
  | Command.end_print => [1]
  | Command.start_page_print => [1]
  | Command.end_page_print => [1]
  | Command.set_dimension w h => [w / 256, w % 256, h / 256, h % 256]

/-- Response offset passed to `_transceive` at each call site in
`printer.py`: `get_info` passes the info key, `set_label_type` and
`set_label_density` pass 16, all other wrappers rely on the default 1. -/
def Command.respoffset : Command → Nat
  | Command.get_info key => key
  | Command.set_label_type _ => 16
  | Command.set_label_density _ => 16
  | _ => 1

/-- The transaction a wrapper method drives, as a function of the packet
batches the six receive rounds deliver. -/
def Command.transact (c : Command) (recvs : Nat → List NiimbotPacket) :
    TransResult :=
  (transceive c.reqcode c.payload c.respoffset recvs).1

/-- C3 counterexample: the `set_label_type` transaction does not match a
response of type `request_type + 1 = 36`; it only matches type
`16 + 35 = 51`, because `set_label_type` (like `set_label_density`) passes
response offset 16 to `_transceive`. -/
theorem C3_counterexample :
    (Command.set_label_type 1).transact (fun _ => [⟨36, [1]⟩])
        = TransResult.noResponse
      ∧ (Command.set_label_type 1).transact (fun _ => [⟨51, [1]⟩])
        = TransResult.response ⟨51, [1]⟩ := by
  constructor <;> rfl

lemma transceiveGo_error (respcode : Nat) (recvs : Nat → List NiimbotPacket)
    (fuel i : Nat) (e : TransResult)
    (h : scanBatch respcode none (recvs i) = Except.error e) :
    transceiveGo respcode recvs (fuel + 1) i = (e, i + 1) := by
  simp [transceiveGo, h]

lemma transceiveGo_match (respcode : Nat) (recvs : Nat → List NiimbotPacket)
    (fuel i : Nat) (p : NiimbotPacket)
    (h : scanBatch respcode none (recvs i) = Except.ok (some p)) :
    transceiveGo respcode recvs (fuel + 1) i = (TransResult.response p, i + 1) := by
  simp [transceiveGo, h]

lemma transceiveGo_skip (respcode : Nat) (recvs : Nat → List NiimbotPacket)
    (fuel i : Nat)
    (h : scanBatch respcode none (recvs i) = Except.ok none) :
    transceiveGo respcode recvs (fuel + 1) i = transceiveGo respcode recvs fuel (i + 1) := by
  simp [transceiveGo, h]

lemma transceiveGo_clean (respcode : Nat) (recvs : Nat → List NiimbotPacket) :
    ∀ (fuel i : Nat),
      (∀ j, j < fuel → scanBatch respcode none (recvs (i + j)) = Except.ok none) →
      transceiveGo respcode recvs fuel i = (TransResult.noResponse, i + fuel) := by
  intro fuel
  induction fuel with
  | zero => intro i _; simp [transceiveGo]
  | succ n ih =>
    intro i h
    rw [transceiveGo_skip respcode recvs n i (by simpa using h 0 (by omega))]
    rw [ih (i + 1) (fun j hj => by
      have := h (1 + j) (by omega)
      rwa [← Nat.add_assoc] at this)]
    rw [Prod.mk.injEq]
    exact ⟨rfl, by omega⟩

lemma transceiveGo_skipClean (respcode : Nat) (recvs : Nat → List NiimbotPacket) :
    ∀ (k fuel i : Nat), k ≤ fuel →
      (∀ j, j < k → scanBatch respcode none (recvs (i + j)) = Except.ok none) →
      transceiveGo respcode recvs fuel i = transceiveGo respcode recvs (fuel - k) (i + k) := by
  intro k
  induction k with
  | zero => intro fuel i _ _; simp
  | succ n ih =>
    intro fuel i hk h
    obtain ⟨m, rfl⟩ : ∃ m, fuel = m + 1 := ⟨fuel - 1, by omega⟩
    rw [transceiveGo_skip respcode recvs m i (by simpa using h 0 (by omega))]
    rw [ih m (i + 1) (by omega) (fun j hj => by
      have := h (1 + j) (by omega)
      rwa [← Nat.add_assoc] at this)]
    congr 1 <;> omega

lemma transact_single_iff (respcode : Nat) (p : NiimbotPacket)
    (h219 : p.type ≠ 219) (h0 : p.type ≠ 0) :
    (transceiveGo respcode (fun _ => [p]) 6 0).1 = TransResult.response p
      ↔ p.type = respcode := by
  have hscan : scanBatch respcode none [p]
      = Except.ok (if p.type = respcode then some p else none) := by
    simp [scanBatch, h219, h0]
  by_cases hm : p.type = respcode
  · rw [if_pos hm] at hscan
    show (transceiveGo respcode (fun _ => [p]) (5 + 1) 0).1 = _ ↔ _
    rw [transceiveGo_match respcode _ 5 0 p hscan]
    simpa using hm
  · rw [if_neg hm] at hscan
    rw [transceiveGo_clean respcode _ 6 0 (fun j _ => hscan)]
    simpa using hm

/-- C3 (amended): the expected response type is `request_type + offset`
where the offset is 1 by default, the requested info key for `GET_INFO`,
and 16 for `SET_LABEL_TYPE` and `SET_LABEL_DENSITY` (their call sites pass
`respoffset=16`): a transaction driven by any command wrapper, offered a
single non-sentinel reply packet each round, returns that packet exactly
when its type is the request code plus that offset. -/
theorem C3_response_offsets (c : Command) (p : NiimbotPacket)
    (h219 : p.type ≠ 219) (h0 : p.type ≠ 0) :
    c.transact (fun _ => [p]) = TransResult.response p ↔
      p.type = c.reqcode +
        (match c with
         | Command.get_info key => key
         | Command.set_label_type _ => 16
         | Command.set_label_density _ => 16
         | _ => 1) := by
  have base := transact_single_iff (c.respoffset + c.reqcode) p h219 h0
  have : c.transact (fun _ => [p])
      = (transceiveGo (c.respoffset + c.reqcode) (fun _ => [p]) 6 0).1 := rfl
  rw [this, base]
  cases c <;> simp [Command.respoffset, Command.reqcode] <;> omega

/-- Witness for C3 (amended) at `start_print` with reply type
`1 + 1 = 2`: the transaction returns the reply. -/
theorem C3_response_offsets_witness :
    Command.start_print.transact (fun _ => [⟨2, [1]⟩])
        = TransResult.response ⟨2, [1]⟩
      ↔ (2 : Nat) = Command.start_print.reqcode + 1 :=
  C3_response_offsets Command.start_print ⟨2, [1]⟩ (by decide) (by decide)

lemma scanBatch_error219 (respcode : Nat) :
    ∀ (pre : List NiimbotPacket) (acc : Option NiimbotPacket)
      (d : List Nat) (post : List NiimbotPacket),
      (∀ q ∈ pre, q.type ≠ 219 ∧ q.type ≠ 0) →
      scanBatch respcode acc (pre ++ ⟨219, d⟩ :: post)
        = Except.error TransResult.deviceError := by
  intro pre
  induction pre with
  | nil => intro acc d post _; simp [scanBatch]
  | cons q qs ih =>
    intro acc d post h
    have hq := h q (List.mem_cons_self q qs)
    simp only [List.cons_append, scanBatch, if_neg hq.1, if_neg hq.2]
    exact ih _ d post (fun r hr => h r (List.mem_cons_of_mem _ hr))

lemma scanBatch_error0 (respcode : Nat) :
    ∀ (pre : List NiimbotPacket) (acc : Option NiimbotPacket)
      (d : List Nat) (post : List NiimbotPacket),
      (∀ q ∈ pre, q.type ≠ 219 ∧ q.type ≠ 0) →
      scanBatch respcode acc (pre ++ ⟨0, d⟩ :: post)
        = Except.error TransResult.notImplemented := by
  intro pre
  induction pre with
  | nil => intro acc d post _; simp [scanBatch]
  | cons q qs ih =>
    intro acc d post h
    have hq := h q (List.mem_cons_self q qs)
    simp only [List.cons_append, scanBatch, if_neg hq.1, if_neg hq.2]
    exact ih _ d post (fun r hr => h r (List.mem_cons_of_mem _ hr))

/-- C5: if, in some round of the polling window (the earlier rounds having
matched nothing and seen no sentinel), the extracted batch contains a
packet of the sentinel error type 219 — preceded only by non-sentinel
packets, which may well include a correctly-typed response — the
transaction ends in `deviceError`; likewise a packet of the sentinel
unsupported type 0 ends it in `notImplemented`.  The expected response
type `respoffset + reqcode` plays no role in either abort. -/
theorem C5_sentinel_priority :
    (∀ (reqcode respoffset k : Nat) (data d : List Nat)
       (recvs : Nat → List NiimbotPacket) (pre post : List NiimbotPacket),
       k < 6 →
       (∀ j, j < k →
         scanBatch (respoffset + reqcode) none (recvs j) = Except.ok none) →
       recvs k = pre ++ ⟨219, d⟩ :: post →
       (∀ q ∈ pre, q.type ≠ 219 ∧ q.type ≠ 0) →
       (transceive reqcode data respoffset recvs).1 = TransResult.deviceError)
    ∧ (∀ (reqcode respoffset k : Nat) (data d : List Nat)
         (recvs : Nat → List NiimbotPacket) (pre post : List NiimbotPacket),
         k < 6 →
         (∀ j, j < k →
           scanBatch (respoffset + reqcode) none (recvs j) = Except.ok none) →
         recvs k = pre ++ ⟨0, d⟩ :: post →
         (∀ q ∈ pre, q.type ≠ 219 ∧ q.type ≠ 0) →
         (transceive reqcode data respoffset recvs).1 = TransResult.notImplemented) := by
  constructor
  · intro reqcode respoffset k data d recvs pre post hk hclean hbatch hpre
    unfold transceive
    rw [transceiveGo_skipClean (respoffset + reqcode) recvs k 6 0 (by omega)
      (fun j hj => by simpa using hclean j hj)]
    obtain ⟨m, hm⟩ : ∃ m, 6 - k = m + 1 := ⟨5 - k, by omega⟩
    rw [hm]
    have hscan : scanBatch (respoffset + reqcode) none (recvs (0 + k))
        = Except.error TransResult.deviceError := by
      rw [Nat.zero_add, hbatch]
      exact scanBatch_error219 _ pre none d post hpre
    rw [transceiveGo_error _ recvs m (0 + k) _ hscan]
  · intro reqcode respoffset k data d recvs pre post hk hclean hbatch hpre
    unfold transceive
    rw [transceiveGo_skipClean (respoffset + reqcode) recvs k 6 0 (by omega)
      (fun j hj => by simpa using hclean j hj)]
    obtain ⟨m, hm⟩ : ∃ m, 6 - k = m + 1 := ⟨5 - k, by omega⟩
    rw [hm]
    have hscan : scanBatch (respoffset + reqcode) none (recvs (0 + k))
        = Except.error TransResult.notImplemented := by
      rw [Nat.zero_add, hbatch]
      exact scanBatch_error0 _ pre none d post hpre
    rw [transceiveGo_error _ recvs m (0 + k) _ hscan]

/-- Witness for C5: request code 35 with offset 1 (expected response 36);
the first batch is a correctly-typed response followed by a type-219
packet — the transaction still raises the device error. -/
theorem C5_sentinel_priority_witness :
    (transceive 35 [1] 1 (fun _ => [⟨36, [1]⟩, ⟨219, []⟩])).1
      = TransResult.deviceError :=
  C5_sentinel_priority.1 35 1 0 [1] [] (fun _ => [⟨36, [1]⟩, ⟨219, []⟩])
    [⟨36, [1]⟩] [] (by omega) (fun j hj => absurd hj (by omega)) rfl
    (by intro q hq; simp only [List.mem_singleton] at hq; subst hq; exact ⟨by decide, by decide⟩)

/-- C6: every transaction polls at most six rounds with one `_recv` (one
transport read) per round: if the first matching, sentinel-free response
appears in round `k+1` the transaction returns it at the end of that
round having made exactly `k+1` reads, and if all six rounds match
nothing it returns `noResponse` — a value distinct from `deviceError` —
after exactly 6 reads. -/
theorem C6_polling_rounds :
    (∀ (reqcode respoffset k : Nat) (data : List Nat)
       (recvs : Nat → List NiimbotPacket) (p : NiimbotPacket),
       k < 6 →
       (∀ j, j < k →
         scanBatch (respoffset + reqcode) none (recvs j) = Except.ok none) →
       scanBatch (respoffset + reqcode) none (recvs k) = Except.ok (some p) →
       transceive reqcode data respoffset recvs = (TransResult.response p, k + 1))
    ∧ (∀ (reqcode respoffset : Nat) (data : List Nat)
         (recvs : Nat → List NiimbotPacket),
         (∀ j, j < 6 →
           scanBatch (respoffset + reqcode) none (recvs j) = Except.ok none) →
         transceive reqcode data respoffset recvs = (TransResult.noResponse, 6))
    ∧ TransResult.noResponse ≠ TransResult.deviceError := by
  refine ⟨?_, ?_, by decide⟩
  · intro reqcode respoffset k data recvs p hk hclean hmatch
    unfold transceive
    rw [transceiveGo_skipClean (respoffset + reqcode) recvs k 6 0 (by omega)
      (fun j hj => by simpa using hclean j hj)]
    obtain ⟨m, hm⟩ : ∃ m, 6 - k = m + 1 := ⟨5 - k, by omega⟩
    rw [hm]
    rw [transceiveGo_match _ recvs m (0 + k) p (by simpa using hmatch)]
    rw [Prod.mk.injEq]
    exact ⟨rfl, by omega⟩
  · intro reqcode respoffset data recvs hclean
    unfold transceive
    rw [transceiveGo_clean (respoffset + reqcode) recvs 6 0
      (fun j hj => by simpa using hclean j hj)]

/-- Witness for C6: a reply of type `1 + 1 = 2` arriving in the second
poll round is returned with exactly two reads made. -/
theorem C6_polling_rounds_witness :
    transceive 1 [1] 1 (fun i => if i = 0 then [] else [⟨2, [1]⟩])
      = (TransResult.response ⟨2, [1]⟩, 2) :=
  C6_polling_rounds.1 1 1 1 [1] (fun i => if i = 0 then [] else [⟨2, [1]⟩])
    ⟨2, [1]⟩ (by omega)
    (by intro j hj; have hj0 : j = 0 := Nat.lt_one_iff.mp hj; subst hj0; rfl) rfl

/-- The bitmap `_encode_image` consumes, after the code's own
`ImageOps.invert(...).convert("1")` pre-processing: `pixel x y = true`
stands for pixel value 1 (a printed dot), `false` for 0. -/
structure Bitmap where
  width : Nat
  height : Nat
  pixel : Nat → Nat → Bool

/-- The row's pixels left to right: the list comprehension
`[img.getpixel((x, y)) for x in range(img.width)]`. -/
def rowBits (img : Bitmap) (y : Nat) : List Bool :=
  (List.range img.width).map (fun x => img.pixel x y)

/-- Conversion `int(line_data, 2)`: the value of the row's bits read as a binary
numeral, leftmost pixel most significant. -/
def bitsToNat (bits : List Bool) : Nat :=
  bits.foldl (fun acc b => 2 * acc + (if b then 1 else 0)) 0

/-- Conversion `n.to_bytes(k, "big")`: the `k`-byte big-endian encoding of `n`. -/
def natToBytesBE : Nat → Nat → List Nat
  | _, 0 => []
  | n, k + 1 => natToBytesBE (n / 256) k ++ [n % 256]

/-- Header `struct.pack(">H3BB", y, 0, 0, 0, 1)`: big-endian 16-bit row index,
three zero count bytes, repeat byte 1.  (Used only for `y < 65536`, where
`y / 256` and `y % 256` are exactly the two index bytes.) -/
def rowHeader (y : Nat) : List Nat := [y / 256, y % 256, 0, 0, 0, 1]

/-- The row packet `_encode_image` yields for row `y`: fixed type `0x85`,
header followed by the packed row bytes. -/
def rowPacketE (img : Bitmap) (y : Nat) : NiimbotPacket :=
  ⟨0x85, rowHeader y ++ natToBytesBE (bitsToNat (rowBits img y)) ((img.width + 7) / 8)⟩

/-- One iteration of the row loop in `_encode_image`.  For a zero-width
image `int(line_data, 2)` is `int("", 2)`, which raises `ValueError`; for
`y ≥ 65536`, `struct.pack(">H", y)` raises `struct.error`.  Both are
modelled as `none`. -/
def encode_row (img : Bitmap) (y : Nat) : Option NiimbotPacket :=
  if img.width = 0 then none
  else if 65536 ≤ y then none
  else some (rowPacketE img y)

/-- Method `PrinterClient._encode_image`: one packet per row, top to bottom.  The
Python generator is consumed eagerly here; the first failing row makes the
whole encoding fail (`none`). -/
def encode_image (img : Bitmap) : Option (List NiimbotPacket) :=
  (List.range img.height).mapM (encode_row img)

/-- The spec's packing of a bit chunk (at most 8 bits) into one byte,
most significant bit first: a missing tail is zero padding in the low
bits. -/
def byteOfBits (bits : List Bool) : Nat :=
  bitsToNat bits * 2 ^ (8 - bits.length)

/-- Modelled from the spec's words, for comparison with the code: "Each
row is packed most-significant-bit-first into `ceil(width/8)` bytes" —
pixel `i` lands in bit `7 - i % 8` of byte `i / 8`. -/
def msbFirstPackSpec (bits : List Bool) : List Nat :=
  (List.range ((bits.length + 7) / 8)).map
    (fun i => byteOfBits ((bits.drop (8 * i)).take 8))

lemma bitsToNat_foldl (bits : List Bool) :
    ∀ init : Nat,
      bits.foldl (fun acc b => 2 * acc + (if b then 1 else 0)) init
        = init * 2 ^ bits.length + bitsToNat bits := by
  induction bits with
  | nil => intro init; simp [bitsToNat]
  | cons b bs ih =>
    intro init
    show bs.foldl _ (2 * init + _) = _
    rw [ih (2 * init + (if b then 1 else 0))]
    have hb : bitsToNat (b :: bs) = (if b then 1 else 0) * 2 ^ bs.length + bitsToNat bs := by
      show bs.foldl _ (2 * 0 + _) = _
      rw [ih (2 * 0 + (if b then 1 else 0))]
      ring_nf
    rw [hb, List.length_cons, Nat.pow_succ]
    cases b <;> simp <;> ring

lemma bitsToNat_append (a b : List Bool) :
    bitsToNat (a ++ b) = bitsToNat a * 2 ^ b.length + bitsToNat b := by
  unfold bitsToNat
  rw [List.foldl_append]
  exact bitsToNat_foldl b _

lemma bitsToNat_lt (bits : List Bool) : bitsToNat bits < 2 ^ bits.length := by
  induction bits with
  | nil => simp [bitsToNat]
  | cons b bs ih =>
    have hb : bitsToNat (b :: bs) = (if b then 1 else 0) * 2 ^ bs.length + bitsToNat bs := by
      show bs.foldl _ (2 * 0 + _) = _
      rw [bitsToNat_foldl bs (2 * 0 + (if b then 1 else 0))]
      ring_nf
    rw [hb, List.length_cons, Nat.pow_succ]
    cases b <;> simp <;> omega

lemma natToBytesBE_split (x : Nat) :
    ∀ (k y : Nat), x < 256 → y < 256 ^ k →
      natToBytesBE (x * 256 ^ k + y) (k + 1) = x :: natToBytesBE y k := by
  intro k
  induction k with
  | zero =>
    intro y hx hy
    have hy0 : y = 0 := by simpa using hy
    subst hy0
    show natToBytesBE (x * 1 + 0) 1 = [x]
    show natToBytesBE ((x * 1 + 0) / 256) 0 ++ [(x * 1 + 0) % 256] = [x]
    simp [natToBytesBE, Nat.mod_eq_of_lt hx]
  | succ k ih =>
    intro y hx hy
    have hdiv : (x * 256 ^ (k + 1) + y) / 256 = x * 256 ^ k + y / 256 := by
      rw [Nat.pow_succ, ← Nat.mul_assoc]
      rw [Nat.add_comm, Nat.add_mul_div_right _ _ (by omega : 0 < 256)]
      omega
    have hmod : (x * 256 ^ (k + 1) + y) % 256 = y % 256 := by
      rw [Nat.pow_succ, ← Nat.mul_assoc, Nat.add_comm, Nat.add_mul_mod_self_right]
    have hy' : y / 256 < 256 ^ k := by
      rw [Nat.div_lt_iff_lt_mul (by omega : 0 < 256)]
      calc y < 256 ^ (k + 1) := hy
        _ = 256 ^ k * 256 := by rw [Nat.pow_succ]
    show natToBytesBE ((x * 256 ^ (k + 1) + y) / 256) (k + 1)
        ++ [(x * 256 ^ (k + 1) + y) % 256] = _
    rw [hdiv, hmod, ih (y / 256) hx hy']
    show x :: (natToBytesBE (y / 256) k ++ [y % 256]) = x :: natToBytesBE y (k + 1)
    rfl

lemma natToBytesBE_eq_msbFirst :
    ∀ (k : Nat) (bits : List Bool), bits.length = 8 * k →
      natToBytesBE (bitsToNat bits) k
        = (List.range k).map (fun i => byteOfBits ((bits.drop (8 * i)).take 8)) := by
  intro k
  induction k with
  | zero =>
    intro bits hlen
    have : bits = [] := List.length_eq_zero.mp (by omega)
    subst this
    rfl
  | succ k ih =>
    intro bits hlen
    have hsplit : bits = bits.take 8 ++ bits.drop 8 := (List.take_append_drop 8 bits).symm
    have hta : (bits.take 8).length = 8 := by
      rw [List.length_take]; omega
    have htb : (bits.drop 8).length = 8 * k := by
      rw [List.length_drop]; omega
    have hval : bitsToNat bits
        = bitsToNat (bits.take 8) * 256 ^ k + bitsToNat (bits.drop 8) := by
      conv_lhs => rw [hsplit]
      rw [bitsToNat_append, htb]
      congr 2
      rw [Nat.pow_mul]
    have hxa : bitsToNat (bits.take 8) < 256 := by
      have := bitsToNat_lt (bits.take 8)
      rw [hta] at this
      omega
    have hxb : bitsToNat (bits.drop 8) < 256 ^ k := by
      have := bitsToNat_lt (bits.drop 8)
      rw [htb, Nat.pow_mul] at this
      norm_num at this
      exact this
    rw [hval, natToBytesBE_split _ k _ hxa hxb, ih (bits.drop 8) htb]
    rw [List.range_succ_eq_map]
    rw [List.map_cons, List.map_map]
    congr 1
    · show bitsToNat (bits.take 8) = byteOfBits ((bits.drop (8 * 0)).take 8)
      simp only [Nat.mul_zero, List.drop_zero, byteOfBits, hta]
      norm_num
    · apply List.map_congr_left
      intro i _
      show byteOfBits (((bits.drop 8).drop (8 * i)).take 8)
          = byteOfBits ((bits.drop (8 * (i + 1))).take 8)
      rw [List.drop_drop]
      have harg : 8 + 8 * i = 8 * (i + 1) := by omega
      rw [harg]

lemma mapM_option_eq_map {α β : Type} (f : α → Option β) (g : α → β) :
    ∀ l : List α, (∀ a ∈ l, f a = some (g a)) → l.mapM f = some (l.map g) := by
  intro l
  induction l with
  | nil => intro _; rfl
  | cons a as ih =>
    intro h
    rw [List.mapM_cons, h a (List.mem_cons_self a as),
      ih (fun b hb => h b (List.mem_cons_of_mem _ hb))]
    rfl

lemma encode_image_eq (img : Bitmap) (hw : 0 < img.width)
    (hh : img.height ≤ 65536) :
    encode_image img = some ((List.range img.height).map (rowPacketE img)) := by
  unfold encode_image
  apply mapM_option_eq_map
  intro y hy
  have hy' : y < 65536 := by
    have := List.mem_range.mp hy
    omega
  unfold encode_row
  rw [if_neg (by omega), if_neg (by omega)]

/-- A 4-pixel-wide, 1-pixel-high bitmap whose only row is all printed. -/
def img4 : Bitmap := ⟨4, 1, fun _ _ => true⟩

/-- C4 counterexample: for width 4 the code packs an all-printed row into
the byte `0x0F` (the 4-bit row value right-aligned in the byte), while
packing the pixels most-significant-bit-first as claimed would give
`0xF0`; so the emitted packet differs from the claimed one. -/
theorem C4_counterexample :
    encode_image img4 = some [⟨0x85, [0, 0, 0, 0, 0, 1, 0x0F]⟩]
      ∧ rowHeader 0 ++ msbFirstPackSpec (rowBits img4 0) = [0, 0, 0, 0, 0, 1, 0xF0]
      ∧ encode_image img4
          ≠ some [⟨0x85, rowHeader 0 ++ msbFirstPackSpec (rowBits img4 0)⟩] := by
  refine ⟨by decide, by decide, by decide⟩

/-- C4 (amended): for every bitmap with `w > 0` and `h ≤ 65536` rows the
encoder yields one packet per row in top-to-bottom order, each of type
`0x85` with payload `big-endian row index, 0, 0, 0, repeat byte 1`
followed by the `ceil(w/8)`-byte big-endian encoding of the row's bit
value (leftmost pixel most significant, left-padded with zero bits);
this coincides with most-significant-bit-first pixel packing exactly as
claimed whenever `w` is a multiple of 8 (so for `w = 8` an all-printed
row packs to `0xFF` and an all-blank row to `0x00`). -/
theorem C4_row_packing (img : Bitmap) (hw : 0 < img.width)
    (hh : img.height ≤ 65536) :
    encode_image img = some ((List.range img.height).map (rowPacketE img))
      ∧ (∀ y, (rowPacketE img y).type = 0x85
          ∧ (rowPacketE img y).data
              = rowHeader y
                ++ natToBytesBE (bitsToNat (rowBits img y)) ((img.width + 7) / 8))
      ∧ (8 ∣ img.width → ∀ y,
          natToBytesBE (bitsToNat (rowBits img y)) ((img.width + 7) / 8)
            = msbFirstPackSpec (rowBits img y)) := by
  refine ⟨encode_image_eq img hw hh, fun y => ⟨rfl, rfl⟩, ?_⟩
  intro hdvd y
  obtain ⟨k, hk⟩ := hdvd
  have hlen : (rowBits img y).length = img.width := by
    unfold rowBits
    rw [List.length_map, List.length_range]
  have hceil : (img.width + 7) / 8 = k := by omega
  have hlen8 : (rowBits img y).length = 8 * k := by omega
  rw [hceil, natToBytesBE_eq_msbFirst k (rowBits img y) hlen8]
  unfold msbFirstPackSpec
  rw [hlen, hk]
  have hceil2 : (8 * k + 7) / 8 = k := by omega
  rw [hceil2]

/-- Witness for C4 (amended) at an 8-wide all-printed one-row bitmap:
the encoder output exists, row 0 is type `0x85` with header `0 0 0 0 0 1`
and packed byte `0xFF`, and the packing agrees with the spec's
most-significant-bit-first packing. -/
theorem C4_row_packing_witness :
    encode_image ⟨8, 1, fun _ _ => true⟩
        = some ((List.range 1).map (rowPacketE ⟨8, 1, fun _ _ => true⟩))
      ∧ (rowPacketE ⟨8, 1, fun _ _ => true⟩ 0).data = [0, 0, 0, 0, 0, 1, 0xFF]
      ∧ natToBytesBE (bitsToNat (rowBits ⟨8, 1, fun _ _ => true⟩ 0)) 1
          = msbFirstPackSpec (rowBits ⟨8, 1, fun _ _ => true⟩ 0) := by
  have h := C4_row_packing ⟨8, 1, fun _ _ => true⟩ (by decide) (by decide)
  exact ⟨h.1, by decide, by simpa using h.2.2 ⟨1, rfl⟩ 0⟩

/-- A zero-width bitmap with one row. -/
def img0 : Bitmap := ⟨0, 1, fun _ _ => false⟩

/-- C9 counterexample: on a width-0, height-1 bitmap the encoder fails
(`int("", 2)` raises `ValueError`) instead of yielding the claimed
packet with a header-only payload. -/
theorem C9_counterexample :
    encode_image img0 = none
      ∧ encode_image img0 ≠ some [⟨0x85, rowHeader 0⟩] := by
  exact ⟨rfl, by decide⟩

/-- C9 (amended): for every bitmap of width 0 and height `h > 0` the
raster encoder fails on its first row — the row-bit string is empty and
its conversion raises — so no packets are produced at all. -/
theorem C9_zero_width_fails (h : Nat) (pixel : Nat → Nat → Bool)
    (hh : 0 < h) :
    encode_image ⟨0, h, pixel⟩ = none := by
  obtain ⟨m, rfl⟩ : ∃ m, h = m + 1 := ⟨h - 1, by omega⟩
  unfold encode_image
  rw [List.range_succ_eq_map, List.mapM_cons]
  have h0 : encode_row ⟨0, m + 1, pixel⟩ 0 = none := rfl
  rw [h0]
  rfl

/-- Witness for C9 (amended) at height 1. -/
theorem C9_zero_width_fails_witness :
    encode_image ⟨0, 1, fun _ _ => false⟩ = none :=
  C9_zero_width_fails 1 (fun _ _ => false) (by decide)

/-- The externally visible calls `PrinterClient.print_image` makes, in
order: the transaction wrappers, the raw row-packet sends, and the
`time.sleep` pauses (milliseconds). -/
inductive PrintCall where
  | setDensity (n : Nat)
  | setLabelType (n : Nat)
  | startPrint
  | startPagePrint
  | setDimension (h w : Nat)
  | sendRow (p : NiimbotPacket)
  | endPagePrint
  | sleepMs (ms : Nat)
  | endPrint
  deriving DecidableEq, Repr

/-- The `while not self.end_print(): time.sleep(0.1)` loop at the end of
`print_image`, with fuel: `results i` is what the `i`-th `end_print`
transaction reports.  Emits the `end_print` call of each attempt and the
100 ms sleep after each failed one. -/
def endPrintLoop (results : Nat → Bool) : Nat → Nat → Option (List PrintCall)
  | 0, _ => none
  | fuel + 1, i =>
    if results i then some [PrintCall.endPrint]
    else (endPrintLoop results fuel (i + 1)).map
      (fun rest => PrintCall.endPrint :: PrintCall.sleepMs 100 :: rest)

/-- Method `PrinterClient.print_image` as the ordered list of calls it issues:
set density, set label type (always 1), start print, start page print,
set dimension with height then width, one send per encoded row, end page
print, a 300 ms sleep, then the end-print polling loop.  The row
generator is consumed eagerly; an encoding failure is `none`. -/
def print_image (img : Bitmap) (density : Nat) (results : Nat → Bool)
    (fuel : Nat) : Option (List PrintCall) :=
  (encode_image img).bind (fun rows =>
    (endPrintLoop results fuel 0).map (fun tail =>
      [PrintCall.setDensity density, PrintCall.setLabelType 1,
       PrintCall.startPrint, PrintCall.startPagePrint,
       PrintCall.setDimension img.height img.width]
      ++ rows.map PrintCall.sendRow
      ++ [PrintCall.endPagePrint, PrintCall.sleepMs 300]
      ++ tail))

lemma endPrintLoop_eq (results : Nat → Bool) :
    ∀ (k fuel i : Nat), k < fuel →
      (∀ j, j < k → results (i + j) = false) → results (i + k) = true →
      endPrintLoop results fuel i
        = some ((List.replicate k [PrintCall.endPrint, PrintCall.sleepMs 100]).flatten
            ++ [PrintCall.endPrint]) := by
  intro k
  induction k with
  | zero =>
    intro fuel i hk _ hsucc
    obtain ⟨m, rfl⟩ : ∃ m, fuel = m + 1 := ⟨fuel - 1, by omega⟩
    show endPrintLoop results (m + 1) i = _
    rw [endPrintLoop]
    rw [if_pos (by simpa using hsucc)]
    simp
  | succ k ih =>
    intro fuel i hk hfail hsucc
    obtain ⟨m, rfl⟩ : ∃ m, fuel = m + 1 := ⟨fuel - 1, by omega⟩
    show endPrintLoop results (m + 1) i = _
    rw [endPrintLoop]
    have h0 : results i = false := by simpa using hfail 0 (by omega)
    rw [if_neg (by simp [h0])]
    rw [ih m (i + 1) (by omega)
      (fun j hj => by
        have := hfail (1 + j) (by omega)
        rwa [← Nat.add_assoc] at this)
      (by
        have : i + 1 + k = i + (k + 1) := by omega
        rw [this]
        exact hsucc)]
    rw [Option.map_some']
    rw [List.replicate_succ, List.flatten_cons]
    rfl

lemma print_image_eq (img : Bitmap) (density : Nat) (results : Nat → Bool)
    (k fuel : Nat) (hw : 0 < img.width) (hh : img.height ≤ 65536)
    (hk : k < fuel) (hfail : ∀ j, j < k → results j = false)
    (hsucc : results k = true) :
    print_image img density results fuel
      = some ([PrintCall.setDensity density, PrintCall.setLabelType 1,
          PrintCall.startPrint, PrintCall.startPagePrint,
          PrintCall.setDimension img.height img.width]
        ++ (List.range img.height).map (fun y => PrintCall.sendRow (rowPacketE img y))
        ++ [PrintCall.endPagePrint, PrintCall.sleepMs 300]
        ++ ((List.replicate k [PrintCall.endPrint, PrintCall.sleepMs 100]).flatten
            ++ [PrintCall.endPrint])) := by
  unfold print_image
  rw [encode_image_eq img hw hh]
  rw [endPrintLoop_eq results k fuel 0 hk (by simpa using hfail) (by simpa using hsucc)]
  rw [Option.some_bind, Option.map_some', List.map_map]
  rfl

/-- C7: `print_image` issues exactly this sequence and no other: set
density, set label type, start print, start page print, set dimension
with the image's height then width (swapped relative to width×height),
every row packet in top-to-bottom order, end page print, a 300 ms settle
sleep, then `end_print` once per poll with a 100 ms sleep after each
failed attempt — `end_print` (reported successful on attempt `k`, the
earlier attempts failing) is the only repeated step. -/
theorem C7_print_sequence (img : Bitmap) (density : Nat)
    (results : Nat → Bool) (k fuel : Nat) (hw : 0 < img.width)
    (hh : img.height ≤ 65536) (hk : k < fuel)
    (hfail : ∀ j, j < k → results j = false) (hsucc : results k = true) :
    print_image img density results fuel
      = some ([PrintCall.setDensity density, PrintCall.setLabelType 1,
          PrintCall.startPrint, PrintCall.startPagePrint,
          PrintCall.setDimension img.height img.width]
        ++ (List.range img.height).map (fun y => PrintCall.sendRow (rowPacketE img y))
        ++ [PrintCall.endPagePrint, PrintCall.sleepMs 300]
        ++ ((List.replicate k [PrintCall.endPrint, PrintCall.sleepMs 100]).flatten
            ++ [PrintCall.endPrint])) :=
  print_image_eq img density results k fuel hw hh hk hfail hsucc

/-- Witness for C7: a 1×1 all-printed bitmap at density 3 whose second
`end_print` poll succeeds. -/
theorem C7_print_sequence_witness :
    print_image ⟨1, 1, fun _ _ => true⟩ 3 (fun i => decide (1 ≤ i)) 6
      = some [PrintCall.setDensity 3, PrintCall.setLabelType 1,
          PrintCall.startPrint, PrintCall.startPagePrint,
          PrintCall.setDimension 1 1,
          PrintCall.sendRow ⟨0x85, [0, 0, 0, 0, 0, 1, 1]⟩,
          PrintCall.endPagePrint, PrintCall.sleepMs 300,
          PrintCall.endPrint, PrintCall.sleepMs 100, PrintCall.endPrint] := by
  have h := C7_print_sequence ⟨1, 1, fun _ _ => true⟩ 3 (fun i => decide (1 ≤ i))
    1 6 (by decide) (by decide) (by decide) (by decide) (by decide)
  simpa using h

/-- The density-limit adjustment in `NiimbotPrinter.print_image_file`:
`if self.model in ("b18", "d11", "d110") and density > 3: density = 3`
— a silent clamp, no error raised. -/
def adjustDensity (model : String) (density : Nat) : Nat :=
  if (model = "b18" ∨ model = "d11" ∨ model = "d110") ∧ 3 < density then 3
  else density

/-- The tail of `NiimbotPrinter.print_image_file` relevant to the density
claim: after the (unmodelled) rotation and width-based rescaling of the
PIL image, the density is adjusted per model and `client.print_image` is
called with the adjusted value. -/
def print_image_file (model : String) (img : Bitmap) (density : Nat)
    (results : Nat → Bool) (fuel : Nat) : Option (List PrintCall) :=
  print_image img (adjustDensity model density) results fuel

/-- C8: on models `b18`, `d11`, `d110` a requested density above 3 is
silently clamped to 3 (no error) before the density-set transaction; on
every other model the requested density passes through unchanged; and the
very first call a job issues is `set density` with the adjusted value. -/
theorem C8_density_clamp (model : String) (density : Nat) :
    ((model = "b18" ∨ model = "d11" ∨ model = "d110") → 3 < density →
      adjustDensity model density = 3)
    ∧ (¬(model = "b18" ∨ model = "d11" ∨ model = "d110") →
      adjustDensity model density = density)
    ∧ (∀ (img : Bitmap) (results : Nat → Bool) (k fuel : Nat),
        0 < img.width → img.height ≤ 65536 → k < fuel →
        (∀ j, j < k → results j = false) → results k = true →
        (print_image_file model img density results fuel).bind List.head?
          = some (PrintCall.setDensity (adjustDensity model density))) := by
  refine ⟨?_, ?_, ?_⟩
  · intro hm hd
    unfold adjustDensity
    rw [if_pos ⟨hm, hd⟩]
  · intro hm
    unfold adjustDensity
    rw [if_neg (fun h => hm h.1)]
  · intro img results k fuel hw hh hk hfail hsucc
    unfold print_image_file
    rw [print_image_eq img (adjustDensity model density) results k fuel
      hw hh hk hfail hsucc]
    rfl

/-- Witness for C8: a `d11` job requested at density 5 is clamped to 3. -/
theorem C8_density_clamp_witness : adjustDensity "d11" 5 = 3 :=
  (C8_density_clamp "d11" 5).1 (Or.inr (Or.inl rfl)) (by omega)

/-- What a boolean-success command wrapper does with the transaction
result: the two sentinel exceptions propagate; a `None` result makes
`packet.data[0]` raise `AttributeError`; an empty payload raises
`IndexError`; otherwise `bool(packet.data[0])` is returned. -/
inductive CmdResult where
  | ok (b : Bool)
  | attrError
  | indexError
  | deviceError
  | notImplemented
  deriving DecidableEq, Repr

/-- The shared `packet = self._transceive(...); result = bool(packet.data[0])`
pattern of the boolean-success wrappers in `printer.py`. -/
def boolCommandResult : TransResult → CmdResult
  | TransResult.deviceError => CmdResult.deviceError
  | TransResult.notImplemented => CmdResult.notImplemented
  | TransResult.noResponse => CmdResult.attrError
  | TransResult.response p =>
    match p.data with
    | [] => CmdResult.indexError
    | b :: _ => CmdResult.ok (b != 0)

/-- Response handling of `PrinterClient.set_label_density`. -/
def set_label_density_result (r : TransResult) : CmdResult := boolCommandResult r

/-- Response handling of `PrinterClient.set_label_type`. -/
def set_label_type_result (r : TransResult) : CmdResult := boolCommandResult r

/-- Response handling of `PrinterClient.start_print`. -/
def start_print_result (r : TransResult) : CmdResult := boolCommandResult r

/-- Response handling of `PrinterClient.end_print`. -/
def end_print_result (r : TransResult) : CmdResult := boolCommandResult r

/-- Response handling of `PrinterClient.start_page_print`. -/
def start_page_print_result (r : TransResult) : CmdResult := boolCommandResult r

/-- Response handling of `PrinterClient.end_page_print`. -/
def end_page_print_result (r : TransResult) : CmdResult := boolCommandResult r

/-- Response handling of `PrinterClient.set_dimension`. -/
def set_dimension_result (r : TransResult) : CmdResult := boolCommandResult r

/-- Helper `_packet_to_int`: big-endian integer of the payload. -/
def packetToInt (p : NiimbotPacket) : Nat :=
  p.data.foldl (fun acc b => acc * 256 + b) 0

/-- The `InfoEnum` keys with special decodes in `get_info`. -/
def InfoEnum.SOFTVERSION : Nat := 9
def InfoEnum.DEVICESERIAL : Nat := 11
def InfoEnum.HARDVERSION : Nat := 12

/-- The typed value `get_info` returns for a response packet: hex string
for the serial, value/100 for the version fields (kept as the raw
centi-value), a big-endian integer otherwise. -/
inductive InfoValue where
  | hexSerial (data : List Nat)
  | centi (n : Nat)
  | intVal (n : Nat)
  deriving DecidableEq, Repr

/-- The `match key` decoding in `PrinterClient.get_info`. -/
def decodeInfo (key : Nat) (p : NiimbotPacket) : InfoValue :=
  if key = InfoEnum.DEVICESERIAL then InfoValue.hexSerial p.data
  else if key = InfoEnum.SOFTVERSION then InfoValue.centi (packetToInt p)
  else if key = InfoEnum.HARDVERSION then InfoValue.centi (packetToInt p)
  else InfoValue.intVal (packetToInt p)

/-- Result of `PrinterClient.get_info`: the walrus test
`if packet := self._transceive(...)` sends a missing response to the
`else: return None` branch; the sentinel exceptions propagate. -/
inductive InfoResult where
  | value (v : InfoValue)
  | null
  | deviceError
  | notImplemented
  deriving DecidableEq, Repr

/-- Response handling of `PrinterClient.get_info`. -/
def get_info_result (key : Nat) : TransResult → InfoResult
  | TransResult.response p => InfoResult.value (decodeInfo key p)
  | TransResult.noResponse => InfoResult.null
  | TransResult.deviceError => InfoResult.deviceError
  | TransResult.notImplemented => InfoResult.notImplemented

/-- C10: when the polling window elapses with no matching response, every
boolean-success wrapper crashes with the attribute error from
`None.data` — it returns no success/failure value at all — while
`get_info` alone converts the missing response into a null result. -/
theorem C10_no_response_handling :
    set_label_density_result TransResult.noResponse = CmdResult.attrError
    ∧ set_label_type_result TransResult.noResponse = CmdResult.attrError
    ∧ start_print_result TransResult.noResponse = CmdResult.attrError
    ∧ end_print_result TransResult.noResponse = CmdResult.attrError
    ∧ start_page_print_result TransResult.noResponse = CmdResult.attrError
    ∧ end_page_print_result TransResult.noResponse = CmdResult.attrError
    ∧ set_dimension_result TransResult.noResponse = CmdResult.attrError
    ∧ (∀ b : Bool, CmdResult.attrError ≠ CmdResult.ok b)
    ∧ (∀ key : Nat, get_info_result key TransResult.noResponse = InfoResult.null) := by
  refine ⟨rfl, rfl, rfl, rfl, rfl, rfl, rfl, ?_, ?_⟩
  · intro b
    cases b <;> simp
  · intro key
    rfl
